import Mathlib

/-!
Shallow embedding of the Random_Explore repository (veni_vici App.jsx):
an artwork-discovery UI that fetches a batch of artwork records, removes
records matching a ban list, and picks one uniformly at random.

The definitions below are translated directly from `src/veni_vici/src/App.jsx`.
JavaScript strings become `String`, nullable fields become `Option String`,
JS truthiness on those fields is made explicit, the ban list is the list of
`"category:value"` strings the component keeps in its `banList` state, and
the random draw of `Math.random()` is a rational in `[0, 1)`.
-/

namespace VeniVici

/-- One element of the `data` array returned by the catalog request, with the
fields named in the request's `fields` parameter (App.jsx line 16).  All
attribute fields may be absent (`none`). -/
structure Artwork where
  id : Nat
  title : Option String
  artist_title : Option String
  date_display : Option String
  image_id : Option String
  style_title : Option String
  place_of_origin : Option String
  medium_display : Option String
deriving DecidableEq, Inhabited, Repr

/-- JavaScript truthiness of a nullable string field: `null`/`undefined` and
the empty string are falsy. -/
def truthy : Option String → Bool
  | none => false
  | some s => s ≠ ""

/-- The filter callback of `filteredArtworks` (App.jsx lines 24–44): drop a
record when it has no image, or when one of its artist / style / place
values is truthy and the corresponding `"category:value"` string is in the
ban list. -/
def keepArtwork (banList : List String) (artwork : Artwork) : Bool :=
  if truthy artwork.image_id = false then false
  else if truthy artwork.artist_title = true ∧
      ("artist:" ++ artwork.artist_title.getD "") ∈ banList then false
  else if truthy artwork.style_title = true ∧
      ("style:" ++ artwork.style_title.getD "") ∈ banList then false
  else if truthy artwork.place_of_origin = true ∧
      ("place:" ++ artwork.place_of_origin.getD "") ∈ banList then false
  else true

/-- The `filteredArtworks` computation (App.jsx lines 24–44). -/
def filteredArtworks (data : List Artwork) (banList : List String) : List Artwork :=
  data.filter (keepArtwork banList)

/-- The `handleBanToggle` handler (App.jsx lines 82–94): no-op on an empty value,
otherwise remove the `"type:value"` string when present, else append it. -/
def handleBanToggle (ty value : String) (banList : List String) : List String :=
  if value = "" then banList
  else
    let banValue := ty ++ ":" ++ value
    if banValue ∈ banList then banList.filter (fun item => item != banValue)
    else banList ++ [banValue]

/-- The `randomIndex` computation (App.jsx line 53):
`Math.floor(Math.random() * filteredArtworks.length)`, with the draw of
`Math.random()` — an IEEE double in `[0, 1)`, hence a rational — passed in
explicitly. -/
def randomIndex (r : ℚ) (n : ℕ) : ℕ := (⌊r * (n : ℚ)⌋).toNat

/-- Selection of `filteredArtworks[randomIndex]` (App.jsx line 54). -/
def chooseArtwork (r : ℚ) (fa : List Artwork) : Artwork :=
  fa.getD (randomIndex r fa.length) default

/-- The `newItem` object built from the chosen record (App.jsx lines 56–65). -/
structure Item where
  id : Nat
  title : Option String
  artist : Option String
  date : Option String
  style : Option String
  place : Option String
  medium : Option String
  imageUrl : String
deriving DecidableEq, Inhabited, Repr

/-- Field-by-field construction of `newItem` (App.jsx lines 56–65), including
the IIIF image URL composition. -/
def mkItem (a : Artwork) : Item :=
  { id := a.id
    title := a.title
    artist := a.artist_title
    date := a.date_display
    style := a.style_title
    place := a.place_of_origin
    medium := a.medium_display
    imageUrl := "https://www.artic.edu/iiif/2/" ++ a.image_id.getD "" ++
      "/full/843,/0/default.jpg" }

/-- The component's state hooks (App.jsx lines 5–8): `item`, `loading`,
`error`, `banList`. -/
structure AppState where
  item : Option Item
  loading : Bool
  error : Option String
  banList : List String
deriving DecidableEq, Inhabited, Repr

/-- The state at mount (App.jsx lines 5–8). -/
def initialState : AppState := ⟨none, false, none, []⟩

/-- Outcome of `await fetch(...)` followed by `await response.json()`:
either the parsed body's `data` field (`none` when the field is absent),
or a thrown error with its message. -/
inductive FetchResult where
  | ok (data : Option (List Artwork))
  | thrown (msg : String)
deriving DecidableEq

/-- Error message of the empty-batch branch (App.jsx line 69). -/
def emptyBatchMsg : String := "No artworks found. Please try again."

/-- Error message of the empty-after-filter branch (App.jsx line 47). -/
def emptyAfterFilterMsg : String :=
  "No artworks found that match your criteria. Try removing some items from your ban list."

/-- One complete run of `fetchRandomArtwork` (App.jsx lines 11–76), from
`setLoading(true); setError(null)` to the `finally` block, as a function of
the pre-state, the fetch/parse outcome and the random draw.  Every branch
ends with `setLoading(false)`. -/
def fetchRandomArtwork (s : AppState) (resp : FetchResult) (r : ℚ) : AppState :=
  match resp with
  | .thrown msg =>
    { s with error := some ("Error fetching artwork: " ++ msg), loading := false }
  | .ok none =>
    { s with error := some emptyBatchMsg, loading := false }
  | .ok (some arr) =>
    if arr.length > 0 then
      let fa := filteredArtworks arr s.banList
      if fa.length = 0 then
        { s with error := some emptyAfterFilterMsg, loading := false }
      else
        { s with item := some (mkItem (chooseArtwork r fa)), error := none,
                 loading := false }
    else
      { s with error := some emptyBatchMsg, loading := false }

/-- The discrete events that mutate the component's state: a refresh
settling (button click or mount effect) and a ban toggle click. -/
inductive AppEvent where
  | refresh (resp : FetchResult) (r : ℚ)
  | banToggle (ty value : String)

/-- Effect of one event on the state: a settled refresh applies
`fetchRandomArtwork`; a toggle click applies `handleBanToggle` to the
`banList` state and touches nothing else. -/
def stepApp (s : AppState) (e : AppEvent) : AppState :=
  match e with
  | .refresh resp r => fetchRandomArtwork s resp r
  | .banToggle ty value => { s with banList := handleBanToggle ty value s.banList }

/-- The application states reachable from mount by any sequence of settled
refreshes and toggle clicks. -/
inductive ReachableApp : AppState → Prop where
  | init : ReachableApp initialState
  | step : ∀ s e, ReachableApp s → ReachableApp (stepApp s e)

/-- The ban-list states reachable from the empty list via `handleBanToggle`. -/
inductive ReachableBan : List String → Prop where
  | nil : ReachableBan []
  | step : ∀ ty value B, ReachableBan B → ReachableBan (handleBanToggle ty value B)

/-- The three ban categories of the UI (App.jsx lines 29–41 and 131–150). -/
inductive BanCat where
  | artist
  | style
  | place
deriving DecidableEq

/-- The `"category:value"` string a ban entry is stored as, exactly as the
template literals of App.jsx compose it. -/
def banStr : BanCat → String → String
  | .artist, v => "artist:" ++ v
  | .style, v => "style:" ++ v
  | .place, v => "place:" ++ v

/-- The attribute of an artwork record a ban category inspects. -/
def artworkField : BanCat → Artwork → Option String
  | .artist, a => a.artist_title
  | .style, a => a.style_title
  | .place, a => a.place_of_origin

/-- Whether a displayed item matches some ban entry: for one of the three
categories, the item's value is truthy and the composed `"category:value"`
string is in the ban list (the notion the ban filter enforces, App.jsx
lines 29–41). -/
def itemMatchesBan (it : Item) (banList : List String) : Bool :=
  (truthy it.artist && ("artist:" ++ it.artist.getD "") ∈ banList) ||
  (truthy it.style && ("style:" ++ it.style.getD "") ∈ banList) ||
  (truthy it.place && ("place:" ++ it.place.getD "") ∈ banList)

/-- JavaScript `String.prototype.split` with a one-character separator,
on the character list: `splitChars sep cs acc` processes `cs` with `acc`
holding the current segment reversed. -/
def splitChars (sep : Char) : List Char → List Char → List (List Char)
  | [], acc => [acc.reverse]
  | ch :: rest, acc =>
    if ch = sep then acc.reverse :: splitChars sep rest []
    else splitChars sep rest (ch :: acc)

/-- JavaScript `s.split(sep)` for a one-character separator, as used at App.jsx
lines 98 and 104. -/
def jsSplit (sep : Char) (s : String) : List String :=
  (splitChars sep s.data []).map String.mk

/-- The `getDisplayValue` helper (App.jsx lines 97–100): the second segment of the
colon-split when there is one, the whole string otherwise. -/
def getDisplayValue (banValue : String) : String :=
  match jsSplit ':' banValue with
  | _ :: second :: _ => second
  | _ => banValue

/-- The `getBanType` helper (App.jsx lines 102–106): the first segment of the
colon-split when there are at least two, `"unknown"` otherwise. -/
def getBanType (banValue : String) : String :=
  match jsSplit ':' banValue with
  | first :: _ :: _ => first
  | _ => "unknown"

/-- The refresh attempts that end in an error outcome: a thrown
fetch/parse error, an absent or empty `data` array, or a batch the ban
filter empties. -/
def refreshFails (s : AppState) (resp : FetchResult) : Prop :=
  match resp with
  | .thrown _ => True
  | .ok none => True
  | .ok (some arr) => arr = [] ∨ filteredArtworks arr s.banList = []

/-- A concrete artwork record (a Monet with an image) used as test input. -/
def artMonet : Artwork :=
  ⟨1, some "Water Lilies", some "Monet", none, some "img", none, none, none⟩

/-! ### Helper lemmas -/

/-- A zero draw always selects index 0. -/
theorem randomIndex_zero (n : ℕ) : randomIndex 0 n = 0 := by
  simp [randomIndex]

/-- For a draw in `[0, 1)` the computed index is within the batch. -/
theorem randomIndex_lt (r : ℚ) (n : ℕ) (h0 : 0 ≤ r) (h1 : r < 1) (hn : 0 < n) :
    randomIndex r n < n := by
  have hnn : (0 : ℚ) ≤ r * (n : ℚ) := by positivity
  have hfl : ⌊r * (n : ℚ)⌋ < (n : ℤ) := by
    apply Int.floor_lt.mpr
    push_cast
    calc r * (n : ℚ) < 1 * (n : ℚ) := by
          apply mul_lt_mul_of_pos_right h1
          exact_mod_cast hn
      _ = (n : ℚ) := one_mul _
  have h0' : (0 : ℤ) ≤ ⌊r * (n : ℚ)⌋ := Int.floor_nonneg.mpr hnn
  exact (Int.toNat_lt' (by exact_mod_cast hn.ne')).mpr (by exact_mod_cast hfl)

/-- What surviving the filter callback means, conjunct by conjunct. -/
theorem keepArtwork_spec (bl : List String) (a : Artwork)
    (h : keepArtwork bl a = true) :
    truthy a.image_id = true ∧
    ¬(truthy a.artist_title = true ∧ ("artist:" ++ a.artist_title.getD "") ∈ bl) ∧
    ¬(truthy a.style_title = true ∧ ("style:" ++ a.style_title.getD "") ∈ bl) ∧
    ¬(truthy a.place_of_origin = true ∧ ("place:" ++ a.place_of_origin.getD "") ∈ bl) := by
  unfold keepArtwork at h
  by_cases h1 : truthy a.image_id = false
  · simp [h1] at h
  · by_cases h2 : truthy a.artist_title = true ∧ ("artist:" ++ a.artist_title.getD "") ∈ bl
    · simp [h1, h2] at h
    · by_cases h3 : truthy a.style_title = true ∧ ("style:" ++ a.style_title.getD "") ∈ bl
      · simp [h1, h2, h3] at h
      · by_cases h4 : truthy a.place_of_origin = true ∧
            ("place:" ++ a.place_of_origin.getD "") ∈ bl
        · simp [h1, h2, h3, h4] at h
        · exact ⟨by simpa using h1, h2, h3, h4⟩

/-! ### Claims -/

/-- C10: every settled run of `fetchRandomArtwork` — success, empty batch,
empty after filtering, or a thrown fetch/parse error — leaves the loading
flag false; the `finally` block (App.jsx lines 73–75) covers every path. -/
theorem refresh_clears_loading (s : AppState) (resp : FetchResult) (r : ℚ) :
    (fetchRandomArtwork s resp r).loading = false := by
  cases resp with
  | thrown m => rfl
  | ok data =>
    cases data with
    | none => rfl
    | some arr =>
      by_cases h : arr.length > 0
      · by_cases h2 : (filteredArtworks arr s.banList).length = 0 <;>
          simp [fetchRandomArtwork, h, h2]
      · simp [fetchRandomArtwork, h]

/-- C4: a succeeding fetch distinguishes the two empty outcomes: an absent
or empty `data` array yields the empty-batch message (App.jsx line 69),
while a non-empty array whose records are all filtered out yields the
distinct empty-after-filter message (App.jsx line 47). -/
theorem refresh_empty_message_distinction (s : AppState) (r : ℚ)
    (data : Option (List Artwork)) (arr : List Artwork) :
    ((data = none ∨ data = some []) →
      (fetchRandomArtwork s (.ok data) r).error = some emptyBatchMsg) ∧
    (arr ≠ [] → filteredArtworks arr s.banList = [] →
      (fetchRandomArtwork s (.ok (some arr)) r).error = some emptyAfterFilterMsg) ∧
    emptyAfterFilterMsg ≠ emptyBatchMsg := by
  refine ⟨?_, ?_, by decide⟩
  · rintro (rfl | rfl)
    · rfl
    · rfl
  · intro harr hfa
    have hl : arr.length > 0 := List.length_pos.mpr harr
    simp [fetchRandomArtwork, hl, hfa]

/-- Witness for C4 at a concrete absent-data response and a concrete
all-filtered batch (a single record with no image). -/
theorem refresh_empty_message_distinction_witness :
    (fetchRandomArtwork initialState (.ok none) 0).error = some emptyBatchMsg ∧
    (fetchRandomArtwork initialState
        (.ok (some [⟨1, none, none, none, none, none, none, none⟩])) 0).error =
      some emptyAfterFilterMsg ∧
    emptyAfterFilterMsg ≠ emptyBatchMsg := by
  have h := refresh_empty_message_distinction initialState 0 none
    [⟨1, none, none, none, none, none, none, none⟩]
  exact ⟨h.1 (Or.inl rfl), h.2.1 (by decide) (by decide), h.2.2⟩

/-- C6: a refresh that ends in any error outcome leaves the displayed item
and the ban list exactly as they were, and sets an error message; only
`error` (and `loading`) change. -/
theorem refresh_error_frame (s : AppState) (resp : FetchResult) (r : ℚ)
    (h : refreshFails s resp) :
    (fetchRandomArtwork s resp r).item = s.item ∧
    (fetchRandomArtwork s resp r).banList = s.banList ∧
    (fetchRandomArtwork s resp r).error.isSome = true := by
  cases resp with
  | thrown m => exact ⟨rfl, rfl, rfl⟩
  | ok data =>
    cases data with
    | none => exact ⟨rfl, rfl, rfl⟩
    | some arr =>
      rcases h with rfl | hfa
      · exact ⟨rfl, rfl, rfl⟩
      · by_cases harr : arr.length > 0
        · simp [fetchRandomArtwork, harr, hfa]
        · simp [fetchRandomArtwork, harr]

/-- Witness for C6: a thrown network error over a state that already
displays a record and has a non-empty ban list. -/
theorem refresh_error_frame_witness :
    (fetchRandomArtwork ⟨some default, false, none, ["artist:Monet"]⟩
        (.thrown "Failed to fetch") 0).item = some default ∧
    (fetchRandomArtwork ⟨some default, false, none, ["artist:Monet"]⟩
        (.thrown "Failed to fetch") 0).banList = ["artist:Monet"] ∧
    (fetchRandomArtwork ⟨some default, false, none, ["artist:Monet"]⟩
        (.thrown "Failed to fetch") 0).error.isSome = true :=
  refresh_error_frame ⟨some default, false, none, ["artist:Monet"]⟩
    (.thrown "Failed to fetch") 0 trivial

/-- C1: every record surviving the ban filter has a truthy (non-empty)
image reference, and none of its artist / style / place values equals the
value of a ban entry of the corresponding category, for any batch and any
ban list built from (category, value) entries with non-empty values. -/
theorem ban_filter_sound (batch : List Artwork) (bans : List (BanCat × String))
    (a : Artwork) (hB : ∀ p ∈ bans, p.2 ≠ "")
    (ha : a ∈ filteredArtworks batch (bans.map fun p => banStr p.1 p.2)) :
    truthy a.image_id = true ∧ ∀ p ∈ bans, artworkField p.1 a ≠ some p.2 := by
  have hk := (List.mem_filter.mp ha).2
  have hs := keepArtwork_spec _ a hk
  refine ⟨hs.1, ?_⟩
  rintro ⟨c, v⟩ hp hfield
  have hv : v ≠ "" := hB _ hp
  have hmem : banStr c v ∈ bans.map fun p => banStr p.1 p.2 :=
    List.mem_map.mpr ⟨(c, v), hp, rfl⟩
  cases c with
  | artist =>
    have hfa : a.artist_title = some v := hfield
    exact hs.2.1 ⟨by simp [truthy, hfa, hv], by simpa [banStr, hfa] using hmem⟩
  | style =>
    have hfa : a.style_title = some v := hfield
    exact hs.2.2.1 ⟨by simp [truthy, hfa, hv], by simpa [banStr, hfa] using hmem⟩
  | place =>
    have hfa : a.place_of_origin = some v := hfield
    exact hs.2.2.2 ⟨by simp [truthy, hfa, hv], by simpa [banStr, hfa] using hmem⟩

/-- Witness for C1: the spec's own scenario — a Monet and a Degas record
with images, ban list `[(artist, "Monet")]`; the Degas record survives and
is clean. -/
theorem ban_filter_sound_witness :
    truthy (Artwork.mk 2 none (some "Degas") none (some "y") none none none).image_id
      = true ∧
    artworkField BanCat.artist
        (Artwork.mk 2 none (some "Degas") none (some "y") none none none) ≠
      some "Monet" := by
  have h := ban_filter_sound
    [⟨1, none, some "Monet", none, some "x", none, none, none⟩,
     ⟨2, none, some "Degas", none, some "y", none, none, none⟩]
    [(BanCat.artist, "Monet")]
    ⟨2, none, some "Degas", none, some "y", none, none, none⟩
    (by decide) (by decide)
  exact ⟨h.1, h.2 (BanCat.artist, "Monet") (by decide)⟩

/-- C8: over a filtered batch of length 1 and any draw in `[0, 1)`, the
computed index `Math.floor(r * 1)` is 0 and the selector returns the single
record. -/
theorem choose_singleton (r : ℚ) (a : Artwork) (h0 : 0 ≤ r) (h1 : r < 1) :
    randomIndex r 1 = 0 ∧ chooseArtwork r [a] = a := by
  have hfl : ⌊r * ((1 : ℕ) : ℚ)⌋ = 0 := by
    rw [Nat.cast_one, mul_one]
    exact Int.floor_eq_zero_iff.mpr ⟨h0, h1⟩
  have hidx : randomIndex r 1 = 0 := by
    unfold randomIndex
    rw [hfl]
    rfl
  refine ⟨hidx, ?_⟩
  unfold chooseArtwork
  rw [List.length_singleton, hidx]
  rfl

/-- Witness for C8 at the draw 0 and a concrete one-record batch. -/
theorem choose_singleton_witness :
    randomIndex 0 1 = 0 ∧
    chooseArtwork 0 [⟨1, none, none, none, some "x", none, none, none⟩] =
      ⟨1, none, none, none, some "x", none, none, none⟩ :=
  choose_singleton 0 ⟨1, none, none, none, some "x", none, none, none⟩
    (le_refl 0) zero_lt_one

/-- Filtering away an element that is not in the list changes nothing. -/
theorem filter_bne_eq_self {l : List String} {a : String} (h : a ∉ l) :
    l.filter (fun b => b != a) = l := by
  apply List.filter_eq_self.mpr
  intro b hb
  exact bne_iff_ne.mpr fun hba => h (hba ▸ hb)

/-- On a duplicate-free list containing `a`, filtering `a` out and
re-appending it is a permutation of the original list. -/
theorem filter_bne_append_perm :
    ∀ (l : List String) (a : String), l.Nodup → a ∈ l →
      ((l.filter (fun b => b != a)) ++ [a]).Perm l := by
  intro l
  induction l with
  | nil => intro a _ ha; cases ha
  | cons x xs ih =>
    intro a hnd hmem
    have hx : x ∉ xs := (List.nodup_cons.mp hnd).1
    have hxs : xs.Nodup := (List.nodup_cons.mp hnd).2
    rcases List.mem_cons.mp hmem with rfl | hmem'
    · rw [List.filter_cons, if_neg (by simp), filter_bne_eq_self hx]
      exact List.perm_append_singleton a xs
    · have hxa : x ≠ a := fun h => hx (h ▸ hmem')
      rw [List.filter_cons, if_pos (bne_iff_ne.mpr hxa), List.cons_append]
      exact List.Perm.cons x (ih a hxs hmem')

/-- Toggling preserves freedom from duplicates. -/
theorem handleBanToggle_nodup (ty v : String) (B : List String) (h : B.Nodup) :
    (handleBanToggle ty v B).Nodup := by
  by_cases hv : v = ""
  · simpa [handleBanToggle, hv] using h
  · by_cases hmem : (ty ++ ":" ++ v) ∈ B
    · simpa [handleBanToggle, hv, hmem] using h.filter _
    · have : (B ++ [ty ++ ":" ++ v]).Nodup :=
        List.nodup_append.mpr ⟨h, List.nodup_singleton _, by simpa using hmem⟩
      simpa [handleBanToggle, hv, hmem] using this

/-- Every ban-list state reachable via `handleBanToggle` is duplicate-free. -/
theorem reachableBan_nodup {B : List String} (h : ReachableBan B) : B.Nodup := by
  induction h with
  | nil => exact List.nodup_nil
  | step ty v B' _ ih => exact handleBanToggle_nodup ty v B' ih

/-- C7: every reachable ban-list state is free of duplicate
`"category:value"` entries, one toggle keeps it so, and one toggle changes
the length by at most one in either direction. -/
theorem banList_nodup_toggle_bounds (B : List String) (ty v : String)
    (h : ReachableBan B) :
    B.Nodup ∧ (handleBanToggle ty v B).Nodup ∧
    (handleBanToggle ty v B).length ≤ B.length + 1 ∧
    B.length ≤ (handleBanToggle ty v B).length + 1 := by
  have hnd := reachableBan_nodup h
  refine ⟨hnd, handleBanToggle_nodup ty v B hnd, ?_⟩
  by_cases hv : v = ""
  · simp [handleBanToggle, hv]
  · by_cases hmem : (ty ++ ":" ++ v) ∈ B
    · have hlen := (filter_bne_append_perm B (ty ++ ":" ++ v) hnd hmem).length_eq
      simp only [List.length_append, List.length_singleton] at hlen
      simp only [handleBanToggle, hv, if_false, hmem, if_true]
      omega
    · simp only [handleBanToggle, hv, if_false, hmem, if_true, List.length_append,
        List.length_singleton]
      omega

/-- Witness for C7 at the empty (reachable) ban list and a concrete toggle. -/
theorem banList_nodup_toggle_bounds_witness :
    ([] : List String).Nodup ∧ (handleBanToggle "artist" "x" []).Nodup ∧
    (handleBanToggle "artist" "x" []).length ≤ ([] : List String).length + 1 ∧
    ([] : List String).length ≤ (handleBanToggle "artist" "x" []).length + 1 :=
  banList_nodup_toggle_bounds [] "artist" "x" ReachableBan.nil

/-- C3 counterexample: on the reachable ban list `["artist:x", "style:y"]`
and the non-empty value `"x"`, toggling `(artist, "x")` twice does not
return the original list — the entry moves to the end. -/
theorem toggle_twice_reorders_cex :
    ReachableBan ["artist:x", "style:y"] ∧ "x" ≠ "" ∧
    handleBanToggle "artist" "x"
        (handleBanToggle "artist" "x" ["artist:x", "style:y"]) ≠
      ["artist:x", "style:y"] := by
  refine ⟨?_, by decide, by decide⟩
  have h := ReachableBan.step "style" "y" _
    (ReachableBan.step "artist" "x" _ ReachableBan.nil)
  have e : handleBanToggle "style" "y" (handleBanToggle "artist" "x" []) =
      ["artist:x", "style:y"] := by decide
  rwa [e] at h

/-- C3 (amended): on any reachable ban list and non-empty value, toggling
the same `(category, value)` twice yields a permutation of the original
list (the same entries, each once); it is exactly the original list
whenever the entry was not present before the first toggle. -/
theorem toggle_twice_perm (c v : String) (B : List String)
    (h : ReachableBan B) (hv : v ≠ "") :
    (handleBanToggle c v (handleBanToggle c v B)).Perm B ∧
    ((c ++ ":" ++ v) ∉ B →
      handleBanToggle c v (handleBanToggle c v B) = B) := by
  have hnd := reachableBan_nodup h
  have heq : (c ++ ":" ++ v) ∉ B →
      handleBanToggle c v (handleBanToggle c v B) = B := by
    intro hmem
    have h1 : handleBanToggle c v B = B ++ [c ++ ":" ++ v] := by
      simp [handleBanToggle, hv, hmem]
    have hmem2 : (c ++ ":" ++ v) ∈ B ++ [c ++ ":" ++ v] := by simp
    have h2 : handleBanToggle c v (B ++ [c ++ ":" ++ v]) =
        (B ++ [c ++ ":" ++ v]).filter (fun b => b != (c ++ ":" ++ v)) := by
      simp [handleBanToggle, hv, hmem2]
    rw [h1, h2, List.filter_append, filter_bne_eq_self hmem]
    simp
  refine ⟨?_, heq⟩
  by_cases hmem : (c ++ ":" ++ v) ∈ B
  · have h1 : handleBanToggle c v B = B.filter (fun b => b != (c ++ ":" ++ v)) := by
      simp [handleBanToggle, hv, hmem]
    have hnotmem : (c ++ ":" ++ v) ∉ B.filter (fun b => b != (c ++ ":" ++ v)) := by
      intro hx
      have := (List.mem_filter.mp hx).2
      simp at this
    have h2 : handleBanToggle c v (B.filter (fun b => b != (c ++ ":" ++ v))) =
        B.filter (fun b => b != (c ++ ":" ++ v)) ++ [c ++ ":" ++ v] := by
      simp [handleBanToggle, hv, hnotmem]
    rw [h1, h2]
    exact filter_bne_append_perm B _ hnd hmem
  · rw [heq hmem]

/-- Witness for C3's amended theorem at the reachable empty ban list. -/
theorem toggle_twice_perm_witness :
    (handleBanToggle "artist" "x" (handleBanToggle "artist" "x" [])).Perm [] ∧
    (("artist" ++ ":" ++ "x") ∉ ([] : List String) →
      handleBanToggle "artist" "x" (handleBanToggle "artist" "x" []) = []) :=
  toggle_twice_perm "artist" "x" [] ReachableBan.nil (by decide)

/-- A conjunction with a decided proposition is false when the
corresponding propositional conjunction is refuted. -/
theorem and_decide_false {b : Bool} {p : Prop} [Decidable p]
    (h : ¬(b = true ∧ p)) : (b && decide p) = false := by
  by_cases hb : b = true
  · have hp : ¬p := fun hp => h ⟨hb, hp⟩
    simp [hb, hp]
  · simp [Bool.not_eq_true] at hb
    simp [hb]

/-- A record that survives the filter yields an item matching no current
ban entry. -/
theorem keep_not_matches (bl : List String) (a : Artwork)
    (h : keepArtwork bl a = true) : itemMatchesBan (mkItem a) bl = false := by
  have hs := keepArtwork_spec bl a h
  unfold itemMatchesBan
  simp only [Bool.or_eq_false_iff]
  exact ⟨⟨and_decide_false hs.2.1, and_decide_false hs.2.2.1⟩,
    and_decide_false hs.2.2.2⟩

/-- C2 counterexample: refresh a mounted app with a one-Monet batch (draw 0),
then click the displayed artist to ban `(artist, "Monet")`.  The resulting
state is reachable, still displays the Monet record, and that record now
matches a ban entry — the invariant fails after a toggle on a displayed
attribute. -/
theorem displayed_matches_ban_cex :
    ReachableApp (stepApp (stepApp initialState
        (.refresh (.ok (some [artMonet])) 0)) (.banToggle "artist" "Monet")) ∧
    (stepApp (stepApp initialState
        (.refresh (.ok (some [artMonet])) 0)) (.banToggle "artist" "Monet")).item =
      some (mkItem artMonet) ∧
    itemMatchesBan (mkItem artMonet)
        ((stepApp (stepApp initialState
          (.refresh (.ok (some [artMonet])) 0)) (.banToggle "artist" "Monet")).banList) =
      true := by
  have e1 : stepApp initialState (.refresh (.ok (some [artMonet])) 0) =
      { item := some (mkItem artMonet), loading := false, error := none,
        banList := [] } := by
    simp [stepApp, fetchRandomArtwork, filteredArtworks, keepArtwork, truthy,
      chooseArtwork, randomIndex_zero, initialState, artMonet, mkItem]
  refine ⟨?_, ?_, ?_⟩
  · exact ReachableApp.step _ _ (ReachableApp.step _ _ ReachableApp.init)
  · rw [e1]; decide
  · rw [e1]; decide

/-- C2 (amended): immediately after a successful refresh the newly
displayed record matches no entry of the ban list the refresh filtered
with; the invariant holds at selection time (a later toggle on a displayed
attribute can break it, as the counterexample shows). -/
theorem displayed_not_banned_after_refresh (s : AppState) (arr : List Artwork)
    (r : ℚ) (it : Item) (h0 : 0 ≤ r) (h1 : r < 1) (harr : arr ≠ [])
    (hfa : filteredArtworks arr s.banList ≠ [])
    (hitem : (fetchRandomArtwork s (.ok (some arr)) r).item = some it) :
    itemMatchesBan it ((fetchRandomArtwork s (.ok (some arr)) r).banList) = false := by
  have hlen : arr.length > 0 := List.length_pos.mpr harr
  have hfl : ¬(filteredArtworks arr s.banList).length = 0 := by
    simpa [List.length_eq_zero] using hfa
  simp only [fetchRandomArtwork, hlen, if_true, hfl, if_false] at hitem ⊢
  have hit : it = mkItem (chooseArtwork r (filteredArtworks arr s.banList)) :=
    (Option.some.injEq _ _ ▸ hitem).symm
  subst hit
  have hidx : randomIndex r (filteredArtworks arr s.banList).length <
      (filteredArtworks arr s.banList).length :=
    randomIndex_lt r _ h0 h1 (Nat.pos_of_ne_zero hfl)
  have hmemfa : chooseArtwork r (filteredArtworks arr s.banList) ∈
      filteredArtworks arr s.banList := by
    unfold chooseArtwork
    rw [List.getD_eq_getElem _ _ hidx]
    exact List.getElem_mem _
  exact keep_not_matches s.banList _ (List.mem_filter.mp hmemfa).2

/-- Witness for C2's amended theorem: a fresh app, a one-Monet batch, the
draw 0. -/
theorem displayed_not_banned_after_refresh_witness :
    itemMatchesBan (mkItem artMonet)
        ((fetchRandomArtwork initialState (.ok (some [artMonet])) 0).banList) =
      false := by
  apply displayed_not_banned_after_refresh initialState [artMonet] 0
    (mkItem artMonet) (le_refl 0) zero_lt_one (by decide) (by decide)
  simp [fetchRandomArtwork, filteredArtworks, keepArtwork, truthy,
    chooseArtwork, randomIndex_zero, initialState, artMonet, mkItem]

/-- C5: the complete post-state of a successful refresh on a mounted app —
the chosen record lands in `item` (App.jsx line 67) and nothing else is
recorded: the component's state (its four `useState` hooks) has no
session-history sequence for the record to be appended to, although the
repository's README checks off the stored-history feature. -/
theorem refresh_success_sets_item_only :
    fetchRandomArtwork initialState (.ok (some [artMonet])) 0 =
      { item := some (mkItem artMonet), loading := false, error := none,
        banList := [] } := by
  simp [fetchRandomArtwork, filteredArtworks, keepArtwork, truthy,
    chooseArtwork, randomIndex_zero, initialState, artMonet, mkItem]

/-- Rebuilding a string from its character list is the identity. -/
theorem string_mk_data (s : String) : String.mk s.data = s := rfl

/-- Appending strings concatenates their character lists. -/
theorem string_data_append (a b : String) : (a ++ b).data = a.data ++ b.data := rfl

/-- The characters of `c ++ ":" ++ v`. -/
theorem data_colon_join (c v : String) :
    (c ++ ":" ++ v).data = c.data ++ ':' :: v.data := by
  have h : (c ++ ":" ++ v).data = (c.data ++ [':']) ++ v.data := rfl
  rw [h, List.append_assoc]
  rfl

/-- Splitting a separator-free segment yields one segment. -/
theorem splitChars_no_sep (sep : Char) (l : List Char) :
    ∀ acc, sep ∉ l → splitChars sep l acc = [acc.reverse ++ l] := by
  induction l with
  | nil => intro acc _; simp [splitChars]
  | cons c cs ih =>
    intro acc h
    have hc : c ≠ sep := fun he => h (he ▸ List.mem_cons_self c cs)
    have hcs : sep ∉ cs := fun hm => h (List.mem_cons_of_mem c hm)
    simp only [splitChars]
    rw [if_neg hc, ih _ hcs]
    simp

/-- Splitting past the first separator occurrence peels off the leading
separator-free segment. -/
theorem splitChars_append_sep (sep : Char) (l : List Char) :
    ∀ (rest acc : List Char), sep ∉ l →
      splitChars sep (l ++ sep :: rest) acc =
        (acc.reverse ++ l) :: splitChars sep rest [] := by
  induction l with
  | nil => intro rest acc _; simp [splitChars]
  | cons c cs ih =>
    intro rest acc h
    have hc : c ≠ sep := fun he => h (he ▸ List.mem_cons_self c cs)
    have hcs : sep ∉ cs := fun hm => h (List.mem_cons_of_mem c hm)
    have h1 : (c :: cs) ++ sep :: rest = c :: (cs ++ sep :: rest) := rfl
    rw [h1]
    simp only [splitChars]
    rw [if_neg hc]
    show splitChars sep (cs ++ sep :: rest) (c :: acc) =
      (acc.reverse ++ c :: cs) :: splitChars sep rest []
    rw [ih _ _ hcs]
    simp

/-- A toggle whose composed `"type:value"` string differs from `x` never
removes `x` from the ban list. -/
theorem mem_handleBanToggle_of_ne (ty w x : String) (B : List String)
    (hx : x ∈ B) (hne : ty ++ ":" ++ w ≠ x) : x ∈ handleBanToggle ty w B := by
  by_cases hw : w = ""
  · simpa [handleBanToggle, hw] using hx
  · by_cases hmem : (ty ++ ":" ++ w) ∈ B
    · have he : handleBanToggle ty w B =
          B.filter (fun b => b != (ty ++ ":" ++ w)) := by
        simp [handleBanToggle, hw, hmem]
      rw [he]
      exact List.mem_filter.mpr ⟨hx, bne_iff_ne.mpr fun h => hne h.symm⟩
    · have he : handleBanToggle ty w B = B ++ [ty ++ ":" ++ w] := by
        simp [handleBanToggle, hw, hmem]
      rw [he]
      exact List.mem_append_left _ hx

/-- C9: for a ban entry `c ++ ":" ++ v` (category `c` colon-free, `v`
non-empty): when `v` has no colon, `getBanType`/`getDisplayValue` recover
the original pair and the ban-list click's toggle removes the entry; when
`v` contains a colon (first occurrence splitting it as `v1 ++ ":" ++ v2`),
`getDisplayValue` returns only the segment of `v` before that colon, the
click composes a different pair, and the entry is not removed. -/
theorem ban_display_roundtrip (c v v1 v2 : String) (B : List String)
    (hc : ':' ∉ c.data) (hv : v ≠ "") :
    (':' ∉ v.data →
      getBanType (c ++ ":" ++ v) = c ∧
      getDisplayValue (c ++ ":" ++ v) = v ∧
      ((c ++ ":" ++ v) ∈ B →
        (c ++ ":" ++ v) ∉
          handleBanToggle (getBanType (c ++ ":" ++ v))
            (getDisplayValue (c ++ ":" ++ v)) B)) ∧
    (v.data = v1.data ++ ':' :: v2.data → ':' ∉ v1.data →
      getBanType (c ++ ":" ++ v) = c ∧
      getDisplayValue (c ++ ":" ++ v) = v1 ∧
      getBanType (c ++ ":" ++ v) ++ ":" ++ getDisplayValue (c ++ ":" ++ v) ≠
        c ++ ":" ++ v ∧
      ((c ++ ":" ++ v) ∈ B →
        (c ++ ":" ++ v) ∈
          handleBanToggle (getBanType (c ++ ":" ++ v))
            (getDisplayValue (c ++ ":" ++ v)) B)) := by
  constructor
  · intro hnv
    have hsplit : jsSplit ':' (c ++ ":" ++ v) = [c, v] := by
      unfold jsSplit
      rw [data_colon_join, splitChars_append_sep ':' c.data v.data [] hc,
        splitChars_no_sep ':' v.data [] hnv]
      simp [string_mk_data]
    have hbt : getBanType (c ++ ":" ++ v) = c := by
      unfold getBanType
      rw [hsplit]
    have hdv : getDisplayValue (c ++ ":" ++ v) = v := by
      unfold getDisplayValue
      rw [hsplit]
    refine ⟨hbt, hdv, ?_⟩
    intro hmem
    rw [hbt, hdv]
    have htog : handleBanToggle c v B =
        B.filter (fun b => b != (c ++ ":" ++ v)) := by
      simp [handleBanToggle, hv, hmem]
    rw [htog]
    intro hx
    have := (List.mem_filter.mp hx).2
    simp at this
  · intro hveq hnv1
    have hdata2 : (c ++ ":" ++ v).data =
        c.data ++ ':' :: (v1.data ++ ':' :: v2.data) := by
      rw [data_colon_join, hveq]
    have hsplit : jsSplit ':' (c ++ ":" ++ v) =
        c :: v1 :: (splitChars ':' v2.data []).map String.mk := by
      unfold jsSplit
      rw [hdata2, splitChars_append_sep ':' c.data _ [] hc,
        splitChars_append_sep ':' v1.data v2.data [] hnv1]
      simp [string_mk_data]
    have hbt : getBanType (c ++ ":" ++ v) = c := by
      unfold getBanType
      rw [hsplit]
    have hdv : getDisplayValue (c ++ ":" ++ v) = v1 := by
      unfold getDisplayValue
      rw [hsplit]
    have hne : c ++ ":" ++ v1 ≠ c ++ ":" ++ v := by
      intro he
      have hd : c.data ++ ':' :: v1.data = c.data ++ ':' :: v.data := by
        rw [← data_colon_join, ← data_colon_join, he]
      have hv1v : v1.data = v.data := by
        have h2 := List.append_cancel_left hd
        exact (List.cons.inj h2).2
      apply hnv1
      rw [hv1v, hveq]
      exact List.mem_append_right _ (List.mem_cons_self ':' v2.data)
    refine ⟨hbt, hdv, by rw [hbt, hdv]; exact hne, ?_⟩
    intro hmem
    rw [hbt, hdv]
    exact mem_handleBanToggle_of_ne c v1 _ B hmem hne

/-- Witness for C9 at the entry `"artist" ++ ":" ++ "a:b"`, whose value
contains a colon: the display value degenerates to `"a"` and the click
fails to remove the entry. -/
theorem ban_display_roundtrip_witness :
    getBanType ("artist" ++ ":" ++ "a:b") = "artist" ∧
    getDisplayValue ("artist" ++ ":" ++ "a:b") = "a" ∧
    getBanType ("artist" ++ ":" ++ "a:b") ++ ":" ++
        getDisplayValue ("artist" ++ ":" ++ "a:b") ≠ "artist" ++ ":" ++ "a:b" ∧
    ("artist" ++ ":" ++ "a:b") ∈
      handleBanToggle (getBanType ("artist" ++ ":" ++ "a:b"))
        (getDisplayValue ("artist" ++ ":" ++ "a:b"))
        ["artist" ++ ":" ++ "a:b"] := by
  have h := (ban_display_roundtrip "artist" "a:b" "a" "b"
    ["artist" ++ ":" ++ "a:b"] (by decide) (by decide)).2 (by decide) (by decide)
  exact ⟨h.1, h.2.1, h.2.2.1, h.2.2.2 (by decide)⟩

end VeniVici
